import Mathlib

/-!
Verification of `conda/models/index_record.py`: a shallow embedding of the
package-record model (identity keys, derived-field resolvers, dependency
merging, scalar coercions) together with theorems settling the claims of
the natural-language specification.

Python strings are embedded as Lean `String` (or `List Char` where the
claim needs character-level splitting); Python `None` / absent entity
fields are embedded as `Option`; Python exceptions are embedded as
`Except PyErr`.
-/

set_option maxRecDepth 4096

namespace CondaIndex

/-- The kinds of Python exception the embedded code can raise. -/
inductive PyErr where
  | attributeError
  | typeError
  | valueError
  | validationError
deriving DecidableEq, Repr

/-! ## Character-level embeddings of the Python `str` operations -/

/-- A Python string viewed as its character sequence. -/
abbrev PyStr := List Char

/-- Embedding of Python `s.replace(a, b)` for single characters `a`, `b`. -/
def pyReplace (a b : Char) (s : PyStr) : PyStr :=
  s.map (fun c => if c = a then b else c)

/-- Embedding of Python `s.split(sep)` for a single-character separator:
splits at every occurrence of `sep`, keeping empty pieces, and the split of
the empty string is `[[]]` (Python: `''.split(',') == ['']`). -/
def pySplit (sep : Char) : PyStr → List PyStr
  | [] => [[]]
  | c :: t =>
    let r := pySplit sep t
    if c = sep then [] :: r else (c :: r.headD []) :: r.tail

/-- Embedding of Python `sep.join(parts)` for a single-character separator. -/
def pyJoin (sep : Char) : List PyStr → PyStr
  | [] => []
  | [x] => x
  | x :: y :: r => x ++ sep :: pyJoin sep (y :: r)

/-- Embedding of Python `needle in haystack` (substring containment). -/
def containsSub (needle : PyStr) : PyStr → Bool
  | [] => needle.isEmpty
  | c :: t => needle.isPrefixOf (c :: t) || containsSub needle t

theorem pySplit_ne_nil (sep : Char) (s : PyStr) : pySplit sep s ≠ [] := by
  cases s with
  | nil => simp [pySplit]
  | cons c t => simp only [pySplit]; split <;> simp

/-- Joining a split with a (possibly different) separator replaces each
occurrence of the split separator by the join separator. -/
theorem pyJoin_pySplit (sep sep' : Char) (s : PyStr) :
    pyJoin sep' (pySplit sep s) = pyReplace sep sep' s := by
  induction s with
  | nil => simp [pySplit, pyJoin, pyReplace]
  | cons c t ih =>
    by_cases hc : c = sep
    · rw [show pySplit sep (c :: t) = [] :: pySplit sep t from by simp [pySplit, hc]]
      cases h : pySplit sep t with
      | nil => exact absurd h (pySplit_ne_nil sep t)
      | cons h0 r =>
        rw [h] at ih
        simp only [pyJoin, List.nil_append]
        rw [ih]
        simp [pyReplace, hc]
    · rw [show pySplit sep (c :: t)
            = (c :: (pySplit sep t).headD []) :: (pySplit sep t).tail from by
          simp [pySplit, hc]]
      cases h : pySplit sep t with
      | nil => exact absurd h (pySplit_ne_nil sep t)
      | cons h0 r =>
        rw [h] at ih
        cases r with
        | nil =>
          simp only [pyJoin, List.headD_cons, List.tail_cons] at ih ⊢
          simp [pyReplace, hc, ih]
        | cons h1 r' =>
          simp only [pyJoin, List.headD_cons, List.tail_cons] at ih ⊢
          simp [pyReplace, hc, List.cons_append, ih]

/-- Two successive character replacements where the first replacement's
target is the second's source collapse to replacing both characters. -/
theorem pyReplace_pyReplace (a b : Char) (s : PyStr) :
    pyReplace b a (pyReplace a b s) = pyReplace b a s := by
  induction s with
  | nil => rfl
  | cons c t ih =>
    simp only [pyReplace, List.map_cons, List.map_map] at *
    by_cases h1 : c = a <;> by_cases h2 : c = b <;> simp_all [pyReplace]

/-! ## `FeaturesField` (src lines 84-98)

`box` turns a single string into a list by `val.replace(' ', ',').split(',')`
and passes a sequence through unchanged (the element-wise string check of
the generic `ListField` machinery accepts every string, including the empty
one); `dump` joins the stored sequence with a single space. -/

/-- A value offered to `FeaturesField.box`: either a single Python string or
an already-ordered sequence of strings. -/
inductive FeatVal where
  | fstr : PyStr → FeatVal
  | flist : List PyStr → FeatVal

/-- `FeaturesField.box`. -/
def featuresBox : FeatVal → List PyStr
  | .fstr s => pySplit ',' (pyReplace ' ' ',' s)
  | .flist l => l

/-- `FeaturesField.dump`: the stored value is always an iterable after
boxing, so the dump is a single-space join. -/
def featuresDump (l : List PyStr) : PyStr := pyJoin ' ' l

/-! ## Insertion-ordered dictionaries (Python `dict` semantics)

`combined_depends` builds Python dicts keyed by package name.  A Python
dict preserves insertion order: assigning to an existing key keeps the
key's position and replaces its value; assigning a new key appends it. -/

/-- Python `d[k] = v` on an insertion-ordered dictionary represented as an
association list. -/
def dictInsert {α : Type} : List (String × α) → String → α → List (String × α)
  | [], k, v => [(k, v)]
  | (k', v') :: t, k, v =>
    if k' = k then (k, v) :: t else (k', v') :: dictInsert t k v

/-- The keys of an ordered dictionary, in insertion order. -/
def dkeys {α : Type} (m : List (String × α)) : List String := m.map Prod.fst

/-- Iterated insertion: both `{k: v for ...}` comprehensions and
`d.update(other)` assign the given key/value pairs one at a time. -/
def dictFold {α : Type} (m : List (String × α)) (l : List (String × α)) :
    List (String × α) :=
  l.foldl (fun m p => dictInsert m p.1 p.2) m

/-- Python `{k: v for (k, v) in l}`. -/
def dictOf {α : Type} (l : List (String × α)) : List (String × α) := dictFold [] l

theorem dictInsert_dictInsert_same {α : Type} (m : List (String × α))
    (k : String) (w v : α) :
    dictInsert (dictInsert m k w) k v = dictInsert m k v := by
  induction m with
  | nil => simp [dictInsert]
  | cons p t ih =>
    obtain ⟨k', v'⟩ := p
    by_cases h : k' = k <;> simp [dictInsert, h, ih]

theorem mem_dkeys_dictInsert {α : Type} (m : List (String × α))
    (k k' : String) (v : α) :
    k' ∈ dkeys (dictInsert m k v) ↔ k' ∈ dkeys m ∨ k' = k := by
  induction m with
  | nil => simp [dictInsert, dkeys]
  | cons p t ih =>
    obtain ⟨k0, v0⟩ := p
    by_cases h : k0 = k
    · subst h
      rw [show dictInsert ((k0, v0) :: t) k0 v = (k0, v) :: t from by
          simp [dictInsert]]
      have e2 : dkeys ((k0, v) :: t) = k0 :: dkeys t := rfl
      have e3 : dkeys ((k0, v0) :: t) = k0 :: dkeys t := rfl
      rw [e2, e3]
      simp only [List.mem_cons]
      tauto
    · rw [show dictInsert ((k0, v0) :: t) k v = (k0, v0) :: dictInsert t k v from by
          simp [dictInsert, h]]
      have e2 : dkeys ((k0, v0) :: dictInsert t k v)
          = k0 :: dkeys (dictInsert t k v) := rfl
      have e3 : dkeys ((k0, v0) :: t) = k0 :: dkeys t := rfl
      rw [e2, e3]
      simp only [List.mem_cons]
      rw [ih]
      tauto

theorem nodup_dkeys_dictInsert {α : Type} (m : List (String × α))
    (k : String) (v : α) (h : (dkeys m).Nodup) :
    (dkeys (dictInsert m k v)).Nodup := by
  induction m with
  | nil => simp [dictInsert, dkeys]
  | cons p t ih =>
    obtain ⟨k0, v0⟩ := p
    simp only [dkeys, List.map_cons, List.nodup_cons] at h
    by_cases hk : k0 = k
    · subst hk
      rw [show dictInsert ((k0, v0) :: t) k0 v = (k0, v) :: t from by
          simp [dictInsert]]
      simp only [dkeys, List.map_cons, List.nodup_cons]
      exact ⟨h.1, h.2⟩
    · simp only [dictInsert, if_neg hk, dkeys, List.map_cons, List.nodup_cons]
      refine ⟨fun hmem => ?_, ih h.2⟩
      rcases (mem_dkeys_dictInsert t k k0 v).1 hmem with h1 | h1
      · exact h.1 h1
      · exact hk h1

theorem dictInsert_swap {α : Type} (m : List (String × α)) {k k2 : String}
    (v v2 : α) (hne : k ≠ k2) (hmem : k ∈ dkeys m) :
    dictInsert (dictInsert m k v) k2 v2 = dictInsert (dictInsert m k2 v2) k v := by
  induction m with
  | nil => simp [dkeys] at hmem
  | cons p t ih =>
    obtain ⟨k0, v0⟩ := p
    by_cases h0 : k0 = k
    · subst h0
      simp [dictInsert, hne]
    · have hmem' : k ∈ dkeys t := by
        simp only [dkeys, List.map_cons, List.mem_cons] at hmem
        rcases hmem with h | h
        · exact absurd h.symm h0
        · exact h
      by_cases h2 : k0 = k2
      · subst h2
        simp [dictInsert, h0, Ne.symm hne]
      · simp only [dictInsert, if_neg h0, if_neg h2]
        rw [ih hmem']

theorem dictFold_dictInsert_mem {α : Type} (d : List (String × α)) :
    ∀ (m : List (String × α)) (k : String) (v : α), k ∈ dkeys m →
      (∀ p ∈ d, p.1 ≠ k) →
      dictFold (dictInsert m k v) d = dictInsert (dictFold m d) k v := by
  induction d with
  | nil => intro m k v _ _; rfl
  | cons p t ih =>
    intro m k v hmem havoid
    obtain ⟨k2, v2⟩ := p
    have hne : k ≠ k2 :=
      fun h => (havoid (k2, v2) (List.mem_cons_self _ _)) (by simp [h])
    show dictFold (dictInsert (dictInsert m k v) k2 v2) t
        = dictInsert (dictFold (dictInsert m k2 v2) t) k v
    rw [dictInsert_swap m v v2 hne hmem]
    exact ih (dictInsert m k2 v2) k v
      ((mem_dkeys_dictInsert m k2 k v2).2 (Or.inl hmem))
      (fun p hp => havoid p (List.mem_cons_of_mem _ hp))

theorem dictFold_dictInsert {α : Type} (d : List (String × α)) :
    ∀ (m : List (String × α)) (k : String) (v : α), (dkeys d).Nodup →
      dictFold m (dictInsert d k v) = dictInsert (dictFold m d) k v := by
  induction d with
  | nil => intro m k v _; rfl
  | cons p t ih =>
    intro m k v hnd
    obtain ⟨k0, w⟩ := p
    simp only [dkeys, List.map_cons, List.nodup_cons] at hnd
    by_cases h0 : k0 = k
    · subst h0
      rw [show dictInsert ((k0, w) :: t) k0 v = (k0, v) :: t from by
          simp [dictInsert]]
      show dictFold (dictInsert m k0 v) t
          = dictInsert (dictFold (dictInsert m k0 w) t) k0 v
      rw [← dictInsert_dictInsert_same m k0 w v]
      exact dictFold_dictInsert_mem t (dictInsert m k0 w) k0 v
        ((mem_dkeys_dictInsert m k0 k0 w).2 (Or.inr rfl))
        (fun p hp h => hnd.1 (h ▸ List.mem_map_of_mem Prod.fst hp))
    · rw [show dictInsert ((k0, w) :: t) k v = (k0, w) :: dictInsert t k v from by
          simp [dictInsert, h0]]
      show dictFold (dictInsert m k0 w) (dictInsert t k v)
          = dictInsert (dictFold (dictInsert m k0 w) t) k v
      exact ih (dictInsert m k0 w) k v hnd.2

theorem dictFold_dictFold {α : Type} (t : List (String × α)) :
    ∀ (d m : List (String × α)), (dkeys d).Nodup →
      dictFold m (dictFold d t) = dictFold (dictFold m d) t := by
  induction t with
  | nil => intro d m _; rfl
  | cons x t' ih =>
    intro d m hnd
    show dictFold m (dictFold (dictInsert d x.1 x.2) t')
        = dictFold (dictInsert (dictFold m d) x.1 x.2) t'
    rw [ih (dictInsert d x.1 x.2) m (nodup_dkeys_dictInsert d x.1 x.2 hnd),
      dictFold_dictInsert d m x.1 x.2 hnd]

/-- Updating with a freshly built dict (`m.update({...})`) assigns the same
entries as assigning the underlying key/value pairs one at a time. -/
theorem dictFold_dictOf {α : Type} (m : List (String × α))
    (l : List (String × α)) : dictFold m (dictOf l) = dictFold m l := by
  have h := dictFold_dictFold l [] m (by simp [dkeys])
  simpa [dictOf, dictFold] using h

/-! ## `MatchSpec` and `IndexJsonRecord.combined_depends` (src lines 256-262) -/

/-- A parsed dependency/constraint specifier: a package name, the raw
predicate text, and a required/optional flag. -/
structure MatchSpec where
  name : String
  spec : String
  optional : Bool
deriving DecidableEq, Repr

/-- Modelled from the spec: the specifier parser (`conda.models.match_spec`
is not in `src/`); per the glossary a specifier carries "a package name and
version/build predicate", the name being the leading package-name token of
the raw specifier string. -/
def matchSpecName (s : String) : String :=
  ((pySplit ' ' s.toList).filter (fun p => !p.isEmpty)).headD s.toList |>.asString

/-- Modelled from the spec: `MatchSpec(spec, optional=...)` construction. -/
def mkMatchSpec (s : String) (opt : Bool) : MatchSpec :=
  { name := matchSpecName s, spec := s, optional := opt }

/-- `IndexJsonRecord.combined_depends`: build a name-keyed dict from the
parsed `depends` entries, build a second dict from the parsed `constrains`
entries (`optional=True`), update the first with the second, and return the
dict's values in order. -/
def combined_depends (depends constrains : List String) : List MatchSpec :=
  let result := dictOf ((depends.map (fun s => mkMatchSpec s false)).map
    (fun ms => (ms.name, ms)))
  let result := dictFold result (dictOf ((constrains.map
    (fun s => mkMatchSpec s true)).map (fun ms => (ms.name, ms))))
  result.map Prod.snd

/-- The claim's description of the merge, followed word for word: parse each
`depends` entry into a required specifier keyed by name in first-seen order,
then for each `constrains` entry (parsed as optional) replace an existing
entry in place, or append it at the end when its name is new. -/
def combined_depends_claim (depends constrains : List String) : List MatchSpec :=
  let m := depends.foldl
    (fun m s => let ms := mkMatchSpec s false; dictInsert m ms.name ms) []
  let m := constrains.foldl
    (fun m s => let ms := mkMatchSpec s true; dictInsert m ms.name ms) m
  m.map Prod.snd

theorem combined_depends_eq_claim (depends constrains : List String) :
    combined_depends depends constrains
      = combined_depends_claim depends constrains := by
  simp only [combined_depends, combined_depends_claim]
  rw [dictFold_dictOf]
  simp only [dictOf, dictFold, List.foldl_map]

/-! ## Channel and Platform (external collaborators, modelled) -/

/-- Modelled from the spec: the URL-to-channel parser of
`conda.models.channel` (not in `src/`) exposes a canonical name, a subdir,
and a package-filename component (§6); a component that is not present is
the empty string here (Python `None`/`''`, both falsy). -/
structure Channel where
  canonicalName : String
  subdir : String
  packageFilename : String
deriving DecidableEq, Repr

/-- Python `s.endswith(pat)`. -/
def strEndsWith (s pat : String) : Bool := pat.toList.isSuffixOf s.toList

/-- The repository subdirectory names a channel URL can carry (§2, §3 of
the spec's glossary: platform/architecture partitions such as "linux-64"
or "noarch"). -/
def knownSubdirs : List String :=
  ["noarch", "linux-64", "linux-32", "linux-aarch64", "win-64", "win-32",
   "osx-64", "osx-arm64"]

/-- Modelled from the spec: parsing a channel from a URL (§4.2, §6): the
trailing package-tarball component, if any, is the package filename; the
path component before it naming a known subdirectory is the subdir; the
rest is the channel's canonical name. -/
def parseChannelStr (url : String) : Channel :=
  let segs := ((pySplit '/' url.toList).map (fun l => l.asString)).filter
    (fun x => x != "" && !(strEndsWith x ":"))
  let fn := match segs.getLast? with
    | some l => if strEndsWith l ".tar.bz2" || strEndsWith l ".conda" then l else ""
    | none => ""
  let base := if fn = "" then segs else segs.dropLast
  let sd := match base.getLast? with
    | some l => if knownSubdirs.contains l then l else ""
    | none => ""
  let base2 := if sd = "" then base else base.dropLast
  { canonicalName := (pyJoin '/' (base2.map String.toList)).asString,
    subdir := sd, packageFilename := fn }

/-- Modelled from the spec: `Channel(None)`, the "empty/placeholder
channel" of §4.2. -/
def noneChannel : Channel :=
  { canonicalName := "<unknown>", subdir := "", packageFilename := "" }

/-- Modelled from the spec: the `Platform` enum of `conda.models.enums`
(not in `src/`); `pname` is the Python enum member's `.name`. -/
inductive Platform where
  | linux
  | win
  | osx
deriving DecidableEq, Repr

def Platform.pname : Platform → String
  | .linux => "linux"
  | .win => "win"
  | .osx => "osx"

/-! ## Derived-field resolvers (src lines 101-168)

Entity fields are embedded as `Option` values: `none` is a field that was
never set (or, for nullable fields, set to Python `None`) — per the spec's
field framework (§1 "out of scope... assumed as a given capability"),
reading such a field inside a resolver triggers the resolver's fallback
path. -/

/-- `ChannelField.__get__` (src lines 110-118): explicit stored value;
else, with a URL present, the channel parsed from that URL; else the
placeholder channel. -/
def channelGet (channel : Option Channel) (url : Option String) : Channel :=
  match channel with
  | some c => c
  | none =>
    match url with
    | some u => parseChannelStr u
    | none => noneChannel

/-- The architecture normalization of `SubdirField.__get__` (src lines
144-145): a token containing "x86" collapses to "64" when it also contains
"64" and to "32" otherwise; other tokens pass through. -/
def normArch (a : String) : String :=
  if containsSub "x86".toList a.toList then
    if containsSub "64".toList a.toList then "64" else "32"
  else a

/-- The platform/arch leg of `SubdirField.__get__` (src lines 137-148):
a truthy platform with a falsy arch gives "noarch"; platform and arch both
truthy give "platform-arch" with the arch normalized; no platform falls
back to the process-wide default subdir, threaded in as `ctx`. -/
def subdirPlatformFallback (ctx : String) (platform : Option Platform)
    (arch : Option String) : String :=
  match platform with
  | none => ctx
  | some p =>
    match arch with
    | none => "noarch"
    | some a => if a = "" then "noarch" else p.pname ++ "-" ++ normArch a

/-- `SubdirField.__get__` (src lines 126-148). -/
def subdirGet (ctx : String) (subdir url : Option String)
    (platform : Option Platform) (arch : Option String) : String :=
  match subdir with
  | some s => s
  | none =>
    match url with
    | some u =>
      if u = "" then subdirPlatformFallback ctx platform arch
      else (parseChannelStr u).subdir
    | none => subdirPlatformFallback ctx platform arch

/-- `FilenameField.__get__` (src lines 156-168): explicit stored value;
else the package filename of the channel parsed from the URL, when that
extraction yields something truthy; else `'%s-%s-%s' % (name, version,
build)`. -/
def filenameGet (fn url : Option String) (name version build : String) : String :=
  match fn with
  | some f => f
  | none =>
    let synth := name ++ "-" ++ version ++ "-" ++ build
    match url with
    | some u =>
      let pf := (parseChannelStr u).packageFilename
      if pf = "" then synth else pf
    | none => synth

/-! ## Record types (src lines 200-282) -/

/-- `PackageRef` (src lines 200-233): `BasePackageRef`'s required identity
fields plus locator fields. -/
structure PackageRef where
  name : String
  version : String
  build : String
  build_number : Int
  channel : Option Channel
  subdir : Option String
  fn : Option String
  md5 : Option String
  url : Option String
deriving DecidableEq, Repr

/-- `PackageRecord` (src lines 236-282): the union of `PackageRef` and
`IndexJsonRecord` capabilities plus the record-level extras. -/
structure PackageRecord where
  name : String
  version : String
  build : String
  build_number : Int
  channel : Option Channel
  subdir : Option String
  fn : Option String
  md5 : Option String
  url : Option String
  arch : Option String
  platform : Option Platform
  depends : List String
  constrains : List String
  features : List String
  track_features : List String
  noarch : Option String
  preferred_env : Option String
  license : Option String
  license_family : Option String
  date : Option String
  priority : Option Int
  size : Option Int
deriving DecidableEq, Repr

/-- A record with only the required fields (name/version/build) set. -/
def baseRec (n v b : String) : PackageRecord :=
  { name := n, version := v, build := b, build_number := 0, channel := none,
    subdir := none, fn := none, md5 := none, url := none, arch := none,
    platform := none, depends := [], constrains := [], features := [],
    track_features := [], noarch := none, preferred_env := none,
    license := none, license_family := none, date := none, priority := none,
    size := none }

def PackageRecord.channelR (r : PackageRecord) : Channel :=
  channelGet r.channel r.url

def PackageRecord.subdirR (ctx : String) (r : PackageRecord) : String :=
  subdirGet ctx r.subdir r.url r.platform r.arch

def PackageRecord.filenameR (r : PackageRecord) : String :=
  filenameGet r.fn r.url r.name r.version r.build

def PackageRef.channelR (r : PackageRef) : Channel := channelGet r.channel r.url

/-- A `PackageRef` declares no `platform`/`arch` fields, so the resolver's
attribute accesses fall into the exception branch: both read as absent. -/
def PackageRef.subdirR (ctx : String) (r : PackageRef) : String :=
  subdirGet ctx r.subdir r.url none none

/-! ## Identity key, equality and hash (src lines 222-230) -/

/-- The 5-element identity key. -/
abbrev Pkey := String × String × String × String × String

/-- `PackageRef._pkey` evaluated on a full `PackageRecord`. -/
def PackageRecord.pkey (ctx : String) (r : PackageRecord) : Pkey :=
  (r.channelR.canonicalName, r.subdirR ctx, r.name, r.version, r.build)

/-- `PackageRef._pkey`. -/
def PackageRef.pkey (ctx : String) (r : PackageRef) : Pkey :=
  (r.channelR.canonicalName, r.subdirR ctx, r.name, r.version, r.build)

/-- A deterministic stand-in for Python's `hash` on a string. -/
def pyHashStr (s : String) : Nat :=
  s.toList.foldl (fun h c => (h * 1000003 + c.toNat) % 2305843009213693951) 5381

/-- A deterministic stand-in for Python's `hash` on the identity 5-tuple;
`__hash__` is this function composed with `_pkey`. -/
def pyHashPkey (k : Pkey) : Nat :=
  ((((pyHashStr k.1 * 31 + pyHashStr k.2.1) * 31 + pyHashStr k.2.2.1) * 31
      + pyHashStr k.2.2.2.1) * 31 + pyHashStr k.2.2.2.2)
    % 2305843009213693951

/-- `PackageRef.__hash__` on a `PackageRecord`: `hash(self._pkey)`. -/
def PackageRecord.hashR (ctx : String) (r : PackageRecord) : Nat :=
  pyHashPkey (r.pkey ctx)

/-- `PackageRef.__hash__`: `hash(self._pkey)`. -/
def PackageRef.hashR (ctx : String) (r : PackageRef) : Nat :=
  pyHashPkey (r.pkey ctx)

/-- `PackageRef.__eq__` between two `PackageRecord`s:
`self._pkey == other._pkey`. -/
def PackageRecord.beqR (ctx : String) (a b : PackageRecord) : Bool :=
  decide (a.pkey ctx = b.pkey ctx)

/-- `PackageRef.__eq__` between a `PackageRecord` and a `PackageRef`: the
implementation reads only `other._pkey`, so any identity-key-exposing value
is accepted on the right. -/
def eqRecRef (ctx : String) (a : PackageRecord) (b : PackageRef) : Bool :=
  decide (a.pkey ctx = b.pkey ctx)

/-- `PackageRef.__eq__` against an arbitrary right operand, embedded as the
operand's identity key when it exposes one: `other._pkey` on a value with
no `_pkey` raises `AttributeError`. -/
def eqDyn (ctx : String) (a : PackageRecord) (other : Option Pkey) :
    Except PyErr Bool :=
  match other with
  | none => Except.error PyErr.attributeError
  | some k => Except.ok (decide (a.pkey ctx = k))

/-! ## `Priority` (src lines 34-50) -/

/-- `Priority`: wraps an integer rank. -/
structure Priority where
  priority : Int
deriving DecidableEq, Repr

/-- A Python value appearing as the right operand of a `Priority`
comparison. -/
inductive PyVal where
  | vint : Int → PyVal
  | vstr : String → PyVal
  | vnone : PyVal
  | vpri : Priority → PyVal

/-- Python `int(x)`: an int is itself; a `Priority` converts through
`__int__` (src lines 40-41); a string parses as a decimal integer or raises
`ValueError`; `None` raises `TypeError`. -/
def pyInt : PyVal → Except PyErr Int
  | .vint n => .ok n
  | .vpri p => .ok p.priority
  | .vnone => .error .typeError
  | .vstr s =>
    let cs := s.toList
    let ds := match cs with
      | c :: t => if c = '-' || c = '+' then t else cs
      | [] => []
    if ds.isEmpty || !(ds.all Char.isDigit) then .error .valueError
    else
      let n : Int := Int.ofNat (ds.foldl (fun n c => n * 10 + (c.toNat - 48)) 0)
      .ok (if cs.headD ' ' = '-' then -n else n)

/-- `Priority.__lt__` (src lines 43-44): `self._priority < int(other)`. -/
def Priority.ltE (p : Priority) (o : PyVal) : Except PyErr Bool :=
  (pyInt o).map (fun i => decide (p.priority < i))

/-- `Priority.__eq__` (src lines 46-47): `self._priority == int(other)`. -/
def Priority.eqE (p : Priority) (o : PyVal) : Except PyErr Bool :=
  (pyInt o).map (fun i => decide (p.priority = i))

/-! ## `LinkTypeField` (src lines 60-68) -/

/-- Modelled from the spec: the `LinkType` enum of `conda.models.enums`
(not in `src/`). -/
inductive LinkType where
  | hardlink
  | softlink
  | copy
  | directory
deriving DecidableEq, Repr

/-- `val.replace('-', '').replace('_', '').lower()` (src line 63). -/
def stripLower (s : String) : String :=
  ((s.toList.filter (fun c => !(c = '-' || c = '_'))).map Char.toLower).asString

/-- Modelled from the spec: the strict enum matching `EnumField.box`
delegates to (vendored auxlib, not in `src/`): a canonical member spelling
yields that member, anything else fails with an invalid-enum-value
error (§7). -/
def linkTypeMatch (s : String) : Except PyErr LinkType :=
  if s = "hardlink" then .ok .hardlink
  else if s = "softlink" then .ok .softlink
  else if s = "copy" then .ok .copy
  else if s = "directory" then .ok .directory
  else .error .validationError

/-- `LinkTypeField.box` on a text value (src lines 61-68). -/
def linkTypeBox (s : String) : Except PyErr LinkType :=
  let v := stripLower s
  if v = "hard" then .ok LinkType.hardlink
  else if v = "soft" then .ok LinkType.softlink
  else linkTypeMatch v

/-! ## Claim theorems -/

/-- C1: two `PackageRecord` values compare equal exactly when their
identity keys — (channel canonical name, subdir, name, version, build) —
are equal; equal keys force equal hashes; and "equal and hashing
identically" holds iff the keys are equal, every field outside the key
(md5, url, size, date, dependency lists, ...) being irrelevant because
`__eq__` and `__hash__` read only `_pkey`. -/
theorem C1_identity_eq_hash (ctx : String) (a b : PackageRecord) :
    (PackageRecord.beqR ctx a b = true ↔ a.pkey ctx = b.pkey ctx) ∧
    (a.pkey ctx = b.pkey ctx →
      PackageRecord.hashR ctx a = PackageRecord.hashR ctx b) ∧
    ((PackageRecord.beqR ctx a b = true ∧
        PackageRecord.hashR ctx a = PackageRecord.hashR ctx b) ↔
      a.pkey ctx = b.pkey ctx) := by
  unfold PackageRecord.beqR PackageRecord.hashR
  refine ⟨decide_eq_true_iff, fun h => by rw [h], ?_, ?_⟩
  · rintro ⟨h1, _⟩
    exact decide_eq_true_iff.1 h1
  · intro h
    exact ⟨decide_eq_true_iff.2 h, by rw [h]⟩

def c1recA : PackageRecord :=
  { baseRec "numpy" "1.2" "0" with
    channel := some { canonicalName := "defaults", subdir := "",
                      packageFilename := "" },
    subdir := some "linux-64", md5 := some "aaa",
    url := some "https://repo/linux-64/numpy-1.2-0.tar.bz2",
    size := some 10, date := some "2020-01-01" }

def c1recB : PackageRecord :=
  { baseRec "numpy" "1.2" "0" with
    channel := some { canonicalName := "defaults", subdir := "",
                      packageFilename := "" },
    subdir := some "linux-64", md5 := some "bbb", size := some 99,
    date := some "2021-06-30", depends := ["python >=3"] }

/-- C1 witness: two records sharing the identity key but differing in md5,
url, size, date and depends are equal and hash identically. -/
theorem C1_identity_eq_hash_witness :
    PackageRecord.beqR "sub0" c1recA c1recB = true ∧
    PackageRecord.hashR "sub0" c1recA = PackageRecord.hashR "sub0" c1recB :=
  ⟨(C1_identity_eq_hash "sub0" c1recA c1recB).1.mpr (by decide),
   (C1_identity_eq_hash "sub0" c1recA c1recB).2.1 (by decide)⟩

/-- C2: `combined_depends` equals the claim's one-pass description — parse
`depends` into required specifiers keyed by name in first-seen order, then
insert each optional `constrains` specifier, replacing in place or
appending — and on depends=["foo >=1"], constrains=["foo <2"] it returns
exactly the one optional "foo" specifier from constrains. -/
theorem C2_combined_depends_merge :
    (∀ depends constrains : List String,
      combined_depends depends constrains
        = combined_depends_claim depends constrains) ∧
    combined_depends ["foo >=1"] ["foo <2"]
      = [{ name := "foo", spec := "foo <2", optional := true }] :=
  ⟨combined_depends_eq_claim, by decide⟩

/-- C2 extra evidence: with a second dependency after "foo", the constrains
entry still lands at "foo"'s original (first) position. -/
theorem C2_combined_depends_merge_position :
    combined_depends ["foo >=1", "bar"] ["foo <2"]
      = [{ name := "foo", spec := "foo <2", optional := true },
         { name := "bar", spec := "bar", optional := false }] := by decide

/-- C3: the subdir accessor resolves, in order: the explicit stored value;
the subdir of the channel parsed from a truthy URL; "noarch" for a truthy
platform with a falsy arch; "platform-arch" with the x86 normalization of
`normArch`; else the process-wide default subdir `ctx`. -/
theorem C3_subdir_chain (ctx : String) (r : PackageRecord) :
    (∀ s, r.subdir = some s → r.subdirR ctx = s) ∧
    (r.subdir = none → ∀ u, r.url = some u → u ≠ "" →
      r.subdirR ctx = (parseChannelStr u).subdir) ∧
    (r.subdir = none → (r.url = none ∨ r.url = some "") →
      ∀ p, r.platform = some p → (r.arch = none ∨ r.arch = some "") →
      r.subdirR ctx = "noarch") ∧
    (r.subdir = none → (r.url = none ∨ r.url = some "") →
      ∀ p a, r.platform = some p → r.arch = some a → a ≠ "" →
      r.subdirR ctx = p.pname ++ "-" ++ normArch a) ∧
    (r.subdir = none → (r.url = none ∨ r.url = some "") → r.platform = none →
      r.subdirR ctx = ctx) := by
  refine ⟨?_, ?_, ?_, ?_, ?_⟩
  · intro s hs
    simp [PackageRecord.subdirR, subdirGet, hs]
  · intro hs u hu hne
    simp [PackageRecord.subdirR, subdirGet, hs, hu, hne]
  · intro hs hurl p hp harch
    rcases hurl with h | h <;> rcases harch with h2 | h2 <;>
      simp [PackageRecord.subdirR, subdirGet, subdirPlatformFallback, hs, h,
        hp, h2]
  · intro hs hurl p a hp ha hne
    rcases hurl with h | h <;>
      simp [PackageRecord.subdirR, subdirGet, subdirPlatformFallback, hs, h,
        hp, ha, hne]
  · intro hs hurl hp
    rcases hurl with h | h <;>
      simp [PackageRecord.subdirR, subdirGet, subdirPlatformFallback, hs, h, hp]

def c3recUrl : PackageRecord :=
  { baseRec "foo" "1.0" "0" with
    url := some "https://repo/linux-64/foo-1.0-0.tar.bz2" }

def c3recPA : PackageRecord :=
  { baseRec "foo" "1.0" "0" with
    platform := some Platform.linux,
    arch := some "x86_64" }

def c3recWin : PackageRecord :=
  { baseRec "foo" "1.0" "0" with platform := some Platform.win }

def c3recBare : PackageRecord := baseRec "foo" "1.0" "0"

/-- C3 witness: the three spec examples, plus the context-default fall
through. -/
theorem C3_subdir_chain_witness :
    c3recUrl.subdirR "ctxsub" = "linux-64" ∧
    c3recPA.subdirR "ctxsub" = "linux-64" ∧
    c3recWin.subdirR "ctxsub" = "noarch" ∧
    c3recBare.subdirR "ctxsub" = "ctxsub" := by
  refine ⟨?_, ?_, ?_, ?_⟩
  · rw [(C3_subdir_chain "ctxsub" c3recUrl).2.1 rfl _ rfl (by decide)]
    decide
  · rw [(C3_subdir_chain "ctxsub" c3recPA).2.2.2.1 rfl (Or.inl rfl)
      Platform.linux "x86_64" rfl rfl (by decide)]
    decide
  · exact (C3_subdir_chain "ctxsub" c3recWin).2.2.1 rfl (Or.inl rfl)
      Platform.win rfl (Or.inl rfl)
  · exact (C3_subdir_chain "ctxsub" c3recBare).2.2.2.2 rfl (Or.inl rfl) rfl

theorem dash_join_ne_empty (a b c : String) : a ++ "-" ++ b ++ "-" ++ c ≠ "" := by
  intro h
  have h2 := congrArg String.length h
  simp only [String.length_append] at h2
  rw [show String.length "-" = 1 from rfl, show String.length "" = 0 from rfl]
    at h2
  omega

def c4recEmpty : PackageRecord := { baseRec "numpy" "1.2" "0" with fn := some "" }

/-- C4 counterexample: a record with name, version and build set but the
stored filename equal to the empty string returns the empty string from the
filename accessor, refuting "the returned filename is never empty". -/
theorem C4_filename_cex : c4recEmpty.filenameR = "" := by decide

/-- C4 (amended): the filename accessor resolves, in order: the explicit
stored value; the package filename extracted from the channel parsed from
the URL when that extraction is non-empty; else "name-version-build" — and
the returned filename is never empty unless the explicitly stored filename
is itself the empty string. -/
theorem C4_filename_chain (r : PackageRecord) :
    (∀ f, r.fn = some f → r.filenameR = f) ∧
    (r.fn = none → ∀ u, r.url = some u →
      (parseChannelStr u).packageFilename ≠ "" →
      r.filenameR = (parseChannelStr u).packageFilename) ∧
    (r.fn = none → ∀ u, r.url = some u →
      (parseChannelStr u).packageFilename = "" →
      r.filenameR = r.name ++ "-" ++ r.version ++ "-" ++ r.build) ∧
    (r.fn = none → r.url = none →
      r.filenameR = r.name ++ "-" ++ r.version ++ "-" ++ r.build) ∧
    (r.fn ≠ some "" → r.filenameR ≠ "") := by
  refine ⟨?_, ?_, ?_, ?_, ?_⟩
  · intro f hf
    simp [PackageRecord.filenameR, filenameGet, hf]
  · intro hf u hu hne
    simp [PackageRecord.filenameR, filenameGet, hf, hu, hne]
  · intro hf u hu hpf
    simp [PackageRecord.filenameR, filenameGet, hf, hu, hpf]
  · intro hf hu
    simp [PackageRecord.filenameR, filenameGet, hf, hu]
  · intro hfn
    cases hf : r.fn with
    | some f =>
      rw [show r.filenameR = f from by
        simp [PackageRecord.filenameR, filenameGet, hf]]
      intro h
      exact hfn (h ▸ hf)
    | none =>
      cases hu : r.url with
      | none =>
        rw [show r.filenameR = r.name ++ "-" ++ r.version ++ "-" ++ r.build
          from by simp [PackageRecord.filenameR, filenameGet, hf, hu]]
        exact dash_join_ne_empty _ _ _
      | some u =>
        by_cases hpf : (parseChannelStr u).packageFilename = ""
        · rw [show r.filenameR = r.name ++ "-" ++ r.version ++ "-" ++ r.build
            from by simp [PackageRecord.filenameR, filenameGet, hf, hu, hpf]]
          exact dash_join_ne_empty _ _ _
        · rw [show r.filenameR = (parseChannelStr u).packageFilename from by
            simp [PackageRecord.filenameR, filenameGet, hf, hu, hpf]]
          exact hpf

def c4recSynth : PackageRecord := baseRec "numpy" "1.2" "0"

/-- C4 witness: the spec example — name="numpy", version="1.2", build="0",
no url, no explicit filename — yields "numpy-1.2-0", which is non-empty. -/
theorem C4_filename_chain_witness :
    c4recSynth.filenameR = "numpy-1.2-0" ∧ c4recSynth.filenameR ≠ "" := by
  constructor
  · rw [(C4_filename_chain c4recSynth).2.2.2.1 rfl rfl]
    decide
  · exact (C4_filename_chain c4recSynth).2.2.2.2 (by decide)

/-- C5 counterexample: the input "a, b c" does not normalize to
["a", "b", "c"] and does not serialize to "a b c" — the ", " produces an
empty element and a double space. -/
theorem C5_features_cex :
    featuresBox (.fstr "a, b c".toList)
        ≠ ["a".toList, "b".toList, "c".toList] ∧
    featuresDump (featuresBox (.fstr "a, b c".toList)) ≠ "a b c".toList := by
  refine ⟨by decide, by decide⟩

/-- C5 (amended): sequence inputs are stored as given, preserving order and
duplicates, and round-trip to the space-joined form; a string input is
split by replacing each space with a comma and splitting on commas, so
adjacent separators yield empty elements and normalize-then-serialize maps
the string to itself with every comma replaced by a space; in particular
"a, b c" normalizes to ["a", "", "b", "c"] and serializes to "a  b c". -/
theorem C5_features_roundtrip :
    (∀ l : List PyStr, featuresDump (featuresBox (.flist l)) = pyJoin ' ' l) ∧
    (∀ s : PyStr, featuresDump (featuresBox (.fstr s)) = pyReplace ',' ' ' s) ∧
    featuresBox (.fstr "a, b c".toList)
      = ["a".toList, [], "b".toList, "c".toList] ∧
    featuresDump (featuresBox (.fstr "a, b c".toList)) = "a  b c".toList := by
  refine ⟨fun l => rfl, fun s => ?_, by decide, by decide⟩
  show pyJoin ' ' (pySplit ',' (pyReplace ' ' ',' s)) = pyReplace ',' ' ' s
  rw [pyJoin_pySplit, pyReplace_pyReplace]

/-- C6: comparing a record against a value that exposes no identity key
fails with the attribute-lookup (type-mismatch) error and never returns a
boolean — in particular never a silent `false`. -/
theorem C6_eq_no_pkey (ctx : String) (r : PackageRecord) :
    eqDyn ctx r none = Except.error PyErr.attributeError ∧
    ∀ b : Bool, eqDyn ctx r none ≠ Except.ok b :=
  ⟨rfl, fun b h => by simp [eqDyn] at h⟩

/-- C6 witness. -/
theorem C6_eq_no_pkey_witness :
    eqDyn "sub0" (baseRec "numpy" "1.2" "0") none
      = Except.error PyErr.attributeError :=
  (C6_eq_no_pkey "sub0" (baseRec "numpy" "1.2" "0")).1

/-- C7: comparison accepts a Priority or a raw integer on the right by
converting it to an integer first; equality and less-than give trichotomy,
transitivity and asymmetry (a total ordering); and Priority(0) < Priority(1),
Priority(3) == 3, Priority(3) < 4. -/
theorem C7_priority_ordering :
    Priority.ltE ⟨0⟩ (.vpri ⟨1⟩) = .ok true ∧
    Priority.eqE ⟨3⟩ (.vint 3) = .ok true ∧
    Priority.ltE ⟨3⟩ (.vint 4) = .ok true ∧
    (∀ p q : Priority, p.ltE (.vpri q) = p.ltE (.vint q.priority) ∧
      p.eqE (.vpri q) = p.eqE (.vint q.priority)) ∧
    (∀ a b : Priority, a.eqE (.vpri b) = .ok true ∨
      a.ltE (.vpri b) = .ok true ∨ b.ltE (.vpri a) = .ok true) ∧
    (∀ a b c : Priority, a.ltE (.vpri b) = .ok true →
      b.ltE (.vpri c) = .ok true → a.ltE (.vpri c) = .ok true) ∧
    (∀ a b : Priority,
      ¬(a.ltE (.vpri b) = .ok true ∧ b.ltE (.vpri a) = .ok true)) := by
  refine ⟨rfl, rfl, rfl, fun p q => ⟨rfl, rfl⟩, ?_, ?_, ?_⟩
  · intro a b
    simp only [Priority.ltE, Priority.eqE, pyInt, Except.map,
      Except.ok.injEq, decide_eq_true_eq]
    omega
  · intro a b c h1 h2
    simp only [Priority.ltE, pyInt, Except.map, Except.ok.injEq,
      decide_eq_true_eq] at h1 h2 ⊢
    omega
  · rintro a b ⟨h1, h2⟩
    simp only [Priority.ltE, pyInt, Except.map, Except.ok.injEq,
      decide_eq_true_eq] at h1 h2
    omega

/-- C7 witness: transitivity applied at Priority 0 < Priority 1 < Priority 2. -/
theorem C7_priority_ordering_witness :
    Priority.ltE ⟨0⟩ (.vpri ⟨2⟩) = .ok true :=
  C7_priority_ordering.2.2.2.2.2.1 ⟨0⟩ ⟨1⟩ ⟨2⟩ rfl rfl

/-- C8: "hard-link", "hard_link" and "HARDLINK" all normalize to the
hardlink member (hyphens/underscores stripped, lowercased, "hard"/"soft"
mapped to their members, then strict enum matching), and any input whose
normalization matches no member fails with the invalid-enum-value error. -/
theorem C8_linktype (s : String) :
    linkTypeBox "hard-link" = .ok LinkType.hardlink ∧
    linkTypeBox "hard_link" = .ok LinkType.hardlink ∧
    linkTypeBox "HARDLINK" = .ok LinkType.hardlink ∧
    linkTypeBox "soft" = .ok LinkType.softlink ∧
    (stripLower s ∉ (["hard", "soft", "hardlink", "softlink", "copy",
        "directory"] : List String) →
      linkTypeBox s = .error PyErr.validationError) := by
  refine ⟨rfl, rfl, rfl, rfl, fun h => ?_⟩
  simp only [List.mem_cons, List.not_mem_nil, or_false, not_or] at h
  obtain ⟨h1, h2, h3, h4, h5, h6⟩ := h
  simp [linkTypeBox, linkTypeMatch, h1, h2, h3, h4, h5, h6]

/-- C8 witness: an unmatched input fails. -/
theorem C8_linktype_witness :
    linkTypeBox "banana" = .error PyErr.validationError :=
  (C8_linktype "banana").2.2.2.2 (by decide)

/-- C9: equality performs no class check beyond reading the identity key —
a `PackageRecord` and a `PackageRef` compare equal exactly when their
`_pkey` tuples are equal, and equal values hash identically because both
`__hash__` implementations hash the same `_pkey`. -/
theorem C9_cross_type_eq (ctx : String) (a : PackageRecord) (b : PackageRef) :
    (eqRecRef ctx a b = true ↔ a.pkey ctx = b.pkey ctx) ∧
    (eqRecRef ctx a b = true →
      PackageRecord.hashR ctx a = PackageRef.hashR ctx b) := by
  unfold eqRecRef PackageRecord.hashR PackageRef.hashR
  refine ⟨decide_eq_true_iff, fun h => ?_⟩
  rw [decide_eq_true_iff.1 h]

def c9rec : PackageRecord :=
  { baseRec "openssl" "1.0.2" "h2" with
    channel := some { canonicalName := "defaults", subdir := "",
                      packageFilename := "" },
    subdir := some "linux-64", md5 := some "m1", size := some 42 }

def c9ref : PackageRef :=
  { name := "openssl", version := "1.0.2", build := "h2", build_number := 7,
    channel := some { canonicalName := "defaults", subdir := "",
                      packageFilename := "" },
    subdir := some "linux-64", fn := none, md5 := none, url := none }

/-- C9 witness: a ref and a record sharing the identity key are equal and
hash identically. -/
theorem C9_cross_type_eq_witness :
    eqRecRef "sub0" c9rec c9ref = true ∧
    PackageRecord.hashR "sub0" c9rec = PackageRef.hashR "sub0" c9ref :=
  ⟨(C9_cross_type_eq "sub0" c9rec c9ref).1.mpr (by decide),
   (C9_cross_type_eq "sub0" c9rec c9ref).2
     ((C9_cross_type_eq "sub0" c9rec c9ref).1.mpr (by decide))⟩

/-- C10: when the right operand's int-conversion fails, both `__lt__` and
`__eq__` fail with that error and neither returns a boolean. -/
theorem C10_priority_bad_rhs (p : Priority) (v : PyVal) (e : PyErr)
    (h : pyInt v = .error e) :
    p.ltE v = .error e ∧ p.eqE v = .error e ∧
    ∀ b : Bool, p.ltE v ≠ .ok b ∧ p.eqE v ≠ .ok b := by
  refine ⟨?_, ?_, fun b => ⟨?_, ?_⟩⟩ <;>
    simp [Priority.ltE, Priority.eqE, h, Except.map]

/-- C10 witness: `None` raises TypeError through both operators; a
non-numeric string raises ValueError. -/
theorem C10_priority_bad_rhs_witness :
    Priority.ltE ⟨0⟩ .vnone = .error PyErr.typeError ∧
    Priority.eqE ⟨0⟩ .vnone = .error PyErr.typeError ∧
    Priority.ltE ⟨0⟩ (.vstr "abc") = .error PyErr.valueError :=
  ⟨(C10_priority_bad_rhs ⟨0⟩ .vnone .typeError rfl).1,
   (C10_priority_bad_rhs ⟨0⟩ .vnone .typeError rfl).2.1,
   (C10_priority_bad_rhs ⟨0⟩ (.vstr "abc") .valueError rfl).1⟩

end CondaIndex
